import Mathlib

/-!
Shallow embedding of the backup engine of `addons-profile-manager`
(`src/addons_profile_manager/core/backup.py`, with configuration types from
`config/settings.py` and exception classes from `utils/exceptions.py`).

Modelling choices:
* A filesystem path is a list of components (`FsPath`).
* The filesystem and its environment form a `World`: a partial map from paths
  to file data, a writability predicate on paths (modelling the
  `PermissionError` cases of `open(..., 'wb')` and `shutil.copy2`), and the
  free space reported by `shutil.disk_usage` at the backup destination parent.
* `datetime.now()` is modelled by a single `now : String` parameter per run.
* MD5 / SHA-256 digests are modelled by injective functions of the file
  content with non-empty output (real hex digests are 32/64 characters and
  never empty); the claims depend only on equality and emptiness of digests.
* Directory creation (`mkdir(parents=True, exist_ok=True)`) is modelled as
  always succeeding; `exists()` checks on destination files are file lookups.
* Python exceptions become the `Exn` type; a phase that can raise returns
  `Except (Exn × World × BackupResult) _`, the error carrying the state at
  raise time (Python mutates `result` in place, so accumulated state survives
  into the top-level `except` handler of `create_backup`).
-/

namespace APM

/-- A filesystem path, as a list of components (the parts of a `pathlib.Path`). -/
abbrev FsPath := List String

/-- `Path.name`: the final path component. -/
def FsPath.name (p : FsPath) : String := p.getLastD ""

/-- `Path.parent`: the path without its final component. -/
def FsPath.parent (p : FsPath) : FsPath := p.dropLast

/-- Render a path into an error message (Python interpolates the `Path`). -/
def FsPath.render (p : FsPath) : String := String.intercalate "/" p

/-- The data of one file on disk: its bytes, whether opening it for reading
succeeds (`False` models `PermissionError` on `open(..., 'rb')`), and its
stat modification time. -/
structure FileData where
  content : List Nat
  readable : Bool := true
  mtime : Nat := 0
deriving DecidableEq

/-- The environment a backup run executes in: the filesystem (a partial map
from paths to file data; `none` is a missing — or entirely unstattable —
file), which paths can be opened for writing, and the free space that
`shutil.disk_usage(backup_path.parent).free` reports. -/
structure World where
  files : FsPath → Option FileData
  writable : FsPath → Bool
  freeSpace : Nat

/-- Look a path up in the filesystem. -/
def World.lookup (w : World) (p : FsPath) : Option FileData := w.files p

/-- `Path.exists()`. -/
def World.fileExists (w : World) (p : FsPath) : Bool := (w.lookup p).isSome

/-- Writing a file: the path now holds the given data (an `open(.., 'wb')`
write truncates, so prior content is irrelevant). -/
def World.setFile (w : World) (p : FsPath) (fd : FileData) : World :=
  { w with files := fun q => if q = p then some fd else w.files q }

/-- Model of `hashlib.md5(...).hexdigest()` over full file content: an
injective function of the bytes whose output is never the empty string. -/
def md5Hex (content : List Nat) : String :=
  "md5:" ++ String.intercalate "." (content.map toString)

/-- Model of `hashlib.sha256(...).hexdigest()` over full file content. -/
def sha256Hex (content : List Nat) : String :=
  "sha256:" ++ String.intercalate "." (content.map toString)

/-- The exception classes of `utils/exceptions.py` that the backup engine
raises (plus Python's builtin `FileNotFoundError`). -/
inductive Exn where
  | insufficientSpace (required_bytes available_bytes : Nat) (path : FsPath)
  | permissionDenied (path : FsPath) (operation : String)
  | fileNotFound (path : FsPath)
deriving DecidableEq

/-- `str(e)` for the exceptions above (`AddonManagerError.__str__` appends
" (Path: ...)"; the megabyte float formatting of `InsufficientSpaceError`
is abstracted to the raw byte counts). -/
def Exn.toMessage : Exn → String
  | .insufficientSpace required available p =>
      "Insufficient disk space. Required: " ++ toString required ++
        " bytes, Available: " ++ toString available ++ " bytes (Path: " ++
        FsPath.render p ++ ")"
  | .permissionDenied p op =>
      "Permission denied for " ++ op ++ " on " ++ FsPath.render p ++
        " (Path: " ++ FsPath.render p ++ ")"
  | .fileNotFound p =>
      "[Errno 2] No such file or directory: " ++ FsPath.render p

/-- `FileIntegrity` (backup.py lines 19-59): file integrity information for
validation. A fresh instance has every metric unset (`None`). -/
structure FileIntegrity where
  file_path : FsPath
  size : Option Nat := none
  md5_hash : Option String := none
  sha256_hash : Option String := none
  modified_time : Option Nat := none
deriving DecidableEq

/-- `FileIntegrity(path)`: constructor, all metrics `None`. -/
def FileIntegrity.init (p : FsPath) : FileIntegrity := { file_path := p }

/-- `FileIntegrity._calculate_hash`: streams the file through a hash; any
`PermissionError` / `FileNotFoundError` while reading yields `""`. -/
def FileIntegrity.calculate_hash (w : World) (p : FsPath)
    (hash : List Nat → String) : String :=
  match w.lookup p with
  | some fd => if fd.readable then hash fd.content else ""
  | none => ""

/-- `FileIntegrity.calculate`: stat the file, then hash it.  If `stat()`
raises (missing file) the `except` clause leaves every field unset; if the
stat succeeds but the file is unreadable, size and mtime are set and the two
digests come back as `""` from `_calculate_hash`. -/
def FileIntegrity.calculate (w : World) (fi : FileIntegrity) : FileIntegrity :=
  match w.lookup fi.file_path with
  | none => fi
  | some fd =>
      { fi with
        size := some fd.content.length
        modified_time := some fd.mtime
        md5_hash := some (FileIntegrity.calculate_hash w fi.file_path md5Hex)
        sha256_hash := some (FileIntegrity.calculate_hash w fi.file_path sha256Hex) }

/-- `FileIntegrity.matches`: equality of size and both digests
(modification time is not compared). -/
def FileIntegrity.matches (fi other : FileIntegrity) : Bool :=
  fi.size == other.size && fi.md5_hash == other.md5_hash &&
    fi.sha256_hash == other.sha256_hash

/-- `BackupValidationError(source_file, dest_file, reason)`. -/
structure BackupValidationError where
  source_file : FsPath
  dest_file : FsPath
  reason : String
deriving DecidableEq

/-- `BackupResult` (backup.py lines 62-93): the accumulator for one run.
Timestamps are modelled as opaque strings. -/
structure BackupResult where
  success : Bool := false
  copied_files : List FsPath := []
  skipped_files : List FsPath := []
  failed_files : List (FsPath × String) := []
  total_size : Nat := 0
  start_time : Option String := none
  end_time : Option String := none
  validation_errors : List BackupValidationError := []
deriving DecidableEq

/-- `BackupResult.add_copied_file`. -/
def BackupResult.add_copied_file (r : BackupResult) (p : FsPath) (size : Nat) :
    BackupResult :=
  { r with copied_files := r.copied_files ++ [p], total_size := r.total_size + size }

/-- `BackupResult.add_failed_file`. -/
def BackupResult.add_failed_file (r : BackupResult) (p : FsPath) (error : String) :
    BackupResult :=
  { r with failed_files := r.failed_files ++ [(p, error)] }

/-- `BackupResult.add_validation_error`. -/
def BackupResult.add_validation_error (r : BackupResult) (e : BackupValidationError) :
    BackupResult :=
  { r with validation_errors := r.validation_errors ++ [e] }

/-- `AddonProfile` (settings.py), restricted to the fields the backup engine
reads (`wow_installation` is only serialized into the metadata manifest,
whose byte content is abstracted in this model). -/
structure AddonProfile where
  name : String
  addons : List String := []
  account_name : Option String := none

/-- `BackupConfig` (settings.py lines 59-81). -/
structure BackupConfig where
  destination_path : FsPath
  create_timestamp_folder : Bool := true
  compress_backup : Bool := false
  validate_integrity : Bool := true
  overwrite_existing : Bool := false
  backup_metadata : Bool := true

/-- `BackupConfig.get_backup_path`: `destination_path/Backup/profile_name`
with an optional `_timestamp` suffix (the timestamp is the run's `now`). -/
def BackupConfig.get_backup_path (c : BackupConfig) (now : String)
    (profile_name : String) : FsPath :=
  let backup_base := c.destination_path ++ ["Backup"]
  if c.create_timestamp_folder then backup_base ++ [profile_name ++ "_" ++ now]
  else backup_base ++ [profile_name]

/-- `ConflictResolution` (settings.py lines 84-93).  Note `strategy` is an
unconstrained string, not an enum. -/
structure ConflictResolution where
  strategy : String := "prompt"
  backup_existing : Bool := true
  backup_suffix : String := ".backup"

/-- `BackupManager._resolve_conflict` (backup.py lines 225-237): a chain of
string comparisons on the configured strategy; `prompt` and any unrecognized
strategy fall back to `"skip"`. -/
def resolve_conflict (conflicts : ConflictResolution) (_source _dest : FsPath) :
    String :=
  if conflicts.strategy == "overwrite" then "overwrite"
  else if conflicts.strategy == "skip" then "skip"
  else if conflicts.strategy == "backup" then "backup"
  else if conflicts.strategy == "prompt" then "skip"
  else "skip"

/-- `BackupManager._copy_file_with_progress` (backup.py lines 213-223):
open source for reading (missing source raises `FileNotFoundError`; an
unreadable source raises `PermissionError`), open destination for writing
(an unwritable destination raises `PermissionError`), stream the bytes.
Both `PermissionError`s are re-raised as `PermissionDeniedError(dest,
"write file")`. -/
def copy_file_with_progress (w : World) (source dest : FsPath) :
    Except Exn World :=
  match w.lookup source with
  | none => .error (.fileNotFound source)
  | some fd =>
      if fd.readable then
        if w.writable dest then
          .ok (w.setFile dest { content := fd.content, readable := true, mtime := 0 })
        else .error (.permissionDenied dest "write file")
      else .error (.permissionDenied dest "write file")

/-- `BackupManager._create_file_backup` (backup.py lines 239-246): copy the
existing destination aside to `file_path.with_suffix(suffix + backup_suffix)`
(for an ordinary name this is `name + backup_suffix`); a `PermissionError`
from `shutil.copy2` becomes `PermissionDeniedError(backup_path,
"create backup")`. -/
def create_file_backup (conflicts : ConflictResolution) (w : World)
    (file_path : FsPath) : Except Exn World :=
  let backup_path := FsPath.parent file_path ++
    [FsPath.name file_path ++ conflicts.backup_suffix]
  match w.lookup file_path with
  | none => .error (.fileNotFound file_path)
  | some fd =>
      if w.writable backup_path then .ok (w.setFile backup_path fd)
      else .error (.permissionDenied backup_path "create backup")

/-- The state carried by a raised exception: the exception together with the
world and the (in-place mutated) result at raise time. -/
abbrev RaiseState := Exn × World × BackupResult

/-- The copy attempt at the bottom of the per-file loop body (backup.py lines
205-211): run `_copy_file_with_progress`, then `source_file.stat().st_size`
and `add_copied_file` on success; any exception is caught and recorded via
`add_failed_file(source_file, str(e))`.  The third component is the `break`
flag (always `false` here). -/
def copy_step (w : World) (r : BackupResult) (source_file dest_file : FsPath) :
    World × BackupResult × Bool :=
  match copy_file_with_progress w source_file dest_file with
  | .ok w' =>
      match w'.lookup source_file with
      | some fd => (w', r.add_copied_file source_file fd.content.length, false)
      | none => (w', r.add_failed_file source_file
          (Exn.toMessage (.fileNotFound source_file)), false)
  | .error e => (w, r.add_failed_file source_file e.toMessage, false)

/-- One iteration of the inner loop of `BackupManager._copy_addon_files`
(backup.py lines 187-211), for one `source_file`.  `resolve` abstracts the
`self._resolve_conflict` call (instantiated with `resolve_conflict conflicts`
in `create_backup`).  Returns the updated state and whether the iteration
executed `break` (the `cancel` action); an exception escaping
`_create_file_backup` is an `Except.error`. -/
def process_file (resolve : FsPath → FsPath → String)
    (conflicts : ConflictResolution) (addon_backup_path : FsPath)
    (w : World) (r : BackupResult) (source_file : FsPath) :
    Except RaiseState (World × BackupResult × Bool) :=
  if ¬ w.fileExists source_file then
    .ok (w, r.add_failed_file source_file "Source file not found", false)
  else
    let dest_file := addon_backup_path ++ [FsPath.name source_file]
    if w.fileExists dest_file then
      let action := resolve source_file dest_file
      if action == "skip" then
        .ok (w, { r with skipped_files := r.skipped_files ++ [source_file] }, false)
      else if action == "backup" then
        match create_file_backup conflicts w dest_file with
        | .error e => .error (e, w, r)
        | .ok w1 => .ok (copy_step w1 r source_file dest_file)
      else if action == "cancel" then
        .ok (w, r, true)
      else
        .ok (copy_step w r source_file dest_file)
    else
      .ok (copy_step w r source_file dest_file)

/-- The inner `for source_file in files` loop of `_copy_addon_files`: fold
`process_file` over the files, stopping early on `break` (third component
`true`) and propagating escaping exceptions. -/
def copy_files_loop (resolve : FsPath → FsPath → String)
    (conflicts : ConflictResolution) (addon_backup_path : FsPath) :
    World → BackupResult → List FsPath →
    Except RaiseState (World × BackupResult × Bool)
  | w, r, [] => .ok (w, r, false)
  | w, r, f :: rest =>
      match process_file resolve conflicts addon_backup_path w r f with
      | .error st => .error st
      | .ok (w', r', true) => .ok (w', r', true)
      | .ok (w', r', false) => copy_files_loop resolve conflicts addon_backup_path w' r' rest

/-- `BackupManager._copy_addon_files` (backup.py lines 175-211): the outer
`for addon_name, files in addon_files.items()` loop (the input map is a list
of pairs in the dict's insertion order; `mkdir` of the per-addon directory is
modelled as always succeeding).  The returned flag records whether any
addon's file loop executed `break`. -/
def copy_addon_files (resolve : FsPath → FsPath → String)
    (conflicts : ConflictResolution) (backup_path : FsPath) :
    World → BackupResult → List (String × List FsPath) →
    Except RaiseState (World × BackupResult × Bool)
  | w, r, [] => .ok (w, r, false)
  | w, r, (addon_name, files) :: rest =>
      let addon_backup_path := backup_path ++ [addon_name]
      match copy_files_loop resolve conflicts addon_backup_path w r files with
      | .error st => .error st
      | .ok (w', r', c) =>
          match copy_addon_files resolve conflicts backup_path w' r' rest with
          | .error st => .error st
          | .ok (w'', r'', c') => .ok (w'', r'', c || c')

/-- `BackupManager._validate_backup_requirements` (backup.py lines 154-173):
sum the sizes of all existing source files, compare to the free space at the
backup path's parent, raise `InsufficientSpaceError` when short.  The
subsequent `mkdir` of the parent is modelled as always succeeding, so the
only raise is the space check.  Returns `some e` when the Python code
raises `e`. -/
def validate_backup_requirements (config : BackupConfig) (now : String)
    (w : World) (profile_name : String)
    (addon_files : List (String × List FsPath)) : Option Exn :=
  let total_size := (addon_files.map (fun af =>
    (af.2.map (fun f => match w.lookup f with
      | some fd => fd.content.length
      | none => 0)).sum)).sum
  let backup_path := config.get_backup_path now profile_name
  let available_space := w.freeSpace
  if available_space < total_size then
    some (.insufficientSpace total_size available_space (FsPath.parent backup_path))
  else
    none

/-- One (addon, source file) pair of `_validate_backup_integrity` (backup.py
lines 259-284): a missing destination records "Destination file not found";
otherwise both files are fingerprinted and a mismatch records
"Integrity check failed". -/
def validate_file (w : World) (addon_backup_path : FsPath) (r : BackupResult)
    (source_file : FsPath) : BackupResult :=
  let dest_file := addon_backup_path ++ [FsPath.name source_file]
  if ¬ w.fileExists dest_file then
    r.add_validation_error ⟨source_file, dest_file, "Destination file not found"⟩
  else
    let source_integrity := FileIntegrity.calculate w (FileIntegrity.init source_file)
    let dest_integrity := FileIntegrity.calculate w (FileIntegrity.init dest_file)
    if ¬ source_integrity.matches dest_integrity then
      r.add_validation_error ⟨source_file, dest_file, "Integrity check failed"⟩
    else r

/-- `BackupManager._validate_backup_integrity` (backup.py lines 248-284):
visit every (addon, file) pair of the input map in order. -/
def validate_backup_integrity (w : World)
    (addon_files : List (String × List FsPath)) (backup_path : FsPath)
    (r : BackupResult) : BackupResult :=
  addon_files.foldl
    (fun acc af => af.2.foldl (validate_file w (backup_path ++ [af.1])) acc) r

/-- `BackupManager._create_backup_metadata` (backup.py lines 286-319): write
the manifest at `backup_path / "backup_metadata.json"`; a `PermissionError`
becomes `PermissionDeniedError(metadata_file, "write metadata")`.  The
manifest's byte content is abstracted (no claim inspects it). -/
def create_backup_metadata (w : World) (backup_path : FsPath) :
    Except Exn World :=
  let metadata_file := backup_path ++ ["backup_metadata.json"]
  if w.writable metadata_file then
    .ok (w.setFile metadata_file { content := [] })
  else
    .error (.permissionDenied metadata_file "write metadata")

/-- The integrity phase guarded by its configuration flag (backup.py lines
137-138). -/
def integrity_phase (config : BackupConfig) (w1 : World)
    (addon_files : List (String × List FsPath)) (backup_path : FsPath)
    (r1 : BackupResult) : BackupResult :=
  if config.validate_integrity then
    validate_backup_integrity w1 addon_files backup_path r1
  else r1

/-- The metadata phase guarded by its configuration flag (backup.py lines
141-142); when disabled the world is untouched and nothing can raise. -/
def metadata_phase (config : BackupConfig) (w1 : World) (backup_path : FsPath) :
    Except Exn World :=
  if config.backup_metadata then create_backup_metadata w1 backup_path
  else .ok w1

/-- The single final assignment of `success` (backup.py line 144). -/
def finish_success (r : BackupResult) : BackupResult :=
  { r with success := r.failed_files.isEmpty && r.validation_errors.isEmpty }

/-- The body of the `try` block of `BackupManager.create_backup` (backup.py
lines 125-144): requirements validation, backup directory creation, the copy
phase, the optional integrity phase, the optional metadata phase, then the
single final assignment of `success`.  The `Bool` in the success value
records whether any `cancel`/`break` happened during the copy phase (the
Python code does not return it; the outer `create_backup` discards it). -/
def create_backup_phases (config : BackupConfig)
    (conflicts : ConflictResolution) (now : String) (w : World)
    (profile : AddonProfile) (addon_files : List (String × List FsPath))
    (r0 : BackupResult) :
    Except RaiseState (World × BackupResult × Bool) :=
  match validate_backup_requirements config now w profile.name addon_files with
  | some e => .error (e, w, r0)
  | none =>
      match copy_addon_files (resolve_conflict conflicts) conflicts
          (config.get_backup_path now profile.name) w r0 addon_files with
      | .error st => .error st
      | .ok (w1, r1, cancelled) =>
          match metadata_phase config w1 (config.get_backup_path now profile.name) with
          | .error e => .error (e, w1,
              integrity_phase config w1 addon_files
                (config.get_backup_path now profile.name) r1)
          | .ok w2 => .ok (w2,
              finish_success (integrity_phase config w1 addon_files
                (config.get_backup_path now profile.name) r1),
              cancelled)

/-- `BackupManager.create_backup` (backup.py lines 119-152): run the phases;
any exception escaping them is caught, recorded as a failed-file entry under
the synthetic path `backup_operation`, and forces `success := false`; the
`finally` clause stamps the end time.  (The session bracket is a no-op for a
single modelled run: the per-run timestamped identity is fresh and is
discarded on exit.) -/
def create_backup (config : BackupConfig) (conflicts : ConflictResolution)
    (now : String) (w : World) (profile : AddonProfile)
    (addon_files : List (String × List FsPath)) : World × BackupResult :=
  let r0 : BackupResult := { start_time := some now }
  match create_backup_phases config conflicts now w profile addon_files r0 with
  | .ok (w', r', _) => (w', { r' with end_time := some now })
  | .error (e, w', r') =>
      let rf := r'.add_failed_file ["backup_operation"] e.toMessage
      (w', { rf with success := false, end_time := some now })

/-- Build a world from an association list of files, a writability predicate
and a free-space figure (for concrete test scenarios). -/
def mkWorld (entries : List (FsPath × FileData)) (wr : FsPath → Bool)
    (free : Nat) : World :=
  { files := fun p => (entries.find? (fun e => e.1 == p)).map Prod.snd
    writable := wr
    freeSpace := free }

/-- Concrete scenario for the insufficient-space run: one addon with one
3-byte source file, zero free space at the destination. -/
def c2World : World := mkWorld [(["s", "a.lua"], { content := [1, 2, 3] })] (fun _ => true) 0

def c2Config : BackupConfig := { destination_path := ["dest"], create_timestamp_folder := false }

def c2Map : List (String × List FsPath) := [("AddonX", [["s", "a.lua"]])]

/-- World with no files at all (for the missing-file integrity records). -/
def c3World : World := mkWorld [] (fun _ => true) 0

/-- World with two missing paths and one stat-able but unreadable file. -/
def c3WitWorld : World :=
  mkWorld [(["u.lua"], { content := [7, 8], readable := false })] (fun _ => true) 0

/-- A conflict resolver that always answers `cancel` (the in-repo
`_resolve_conflict` never returns `"cancel"`; this instantiates the
dispatch's cancel arm). -/
def cancelResolve : FsPath → FsPath → String := fun _ _ => "cancel"

/-- World for the cancel scenario: the source file and its destination under
`bk/A/` both exist, plus a second source file for the sibling addon. -/
def c7World : World :=
  mkWorld
    [(["s", "f1.lua"], { content := [1] }),
     (["s", "f2.lua"], { content := [2] }),
     (["t", "g1.lua"], { content := [3] }),
     (["bk", "A", "f1.lua"], { content := [9] })]
    (fun _ => true) 1000

/-- World for the prompt-conflict scenario: source and conflicting
destination both exist. -/
def c8World : World :=
  mkWorld
    [(["s", "a.lua"], { content := [1, 2] }),
     (["bk", "A", "a.lua"], { content := [3] })]
    (fun _ => true) 1000

/-- World for the unrecognized-strategy scenario: source and conflicting
destination both exist. -/
def c10World : World :=
  mkWorld
    [(["s", "b.lua"], { content := [4] }),
     (["bk", "B", "b.lua"], { content := [5] })]
    (fun _ => true) 1000

/-- Empty world: every source file is missing. -/
def c5World : World := mkWorld [] (fun _ => true) 1000

/-- The validation verdict for one (addon, source file) pair, as the spec
describes it: one error with reason "Destination file not found" when the
computed destination is absent, one with reason "Integrity check failed"
when the two fingerprints do not match, and no error otherwise.  The code's
loop is compared against `filterMap` of this function. -/
def validation_error_at (w : World) (addon_backup_path : FsPath)
    (source_file : FsPath) : Option BackupValidationError :=
  if ¬ w.fileExists (addon_backup_path ++ [FsPath.name source_file]) then
    some ⟨source_file, addon_backup_path ++ [FsPath.name source_file],
      "Destination file not found"⟩
  else if ¬ (FileIntegrity.calculate w (FileIntegrity.init source_file)).matches
      (FileIntegrity.calculate w
        (FileIntegrity.init (addon_backup_path ++ [FsPath.name source_file]))) then
    some ⟨source_file, addon_backup_path ++ [FsPath.name source_file],
      "Integrity check failed"⟩
  else none

/-- The number of files recorded across the three outcome buckets. -/
def BackupResult.bucketCount (r : BackupResult) : Nat :=
  r.copied_files.length + r.skipped_files.length + r.failed_files.length

/-- Total number of file entries across all addons of the input map. -/
def totalFiles (addon_files : List (String × List FsPath)) : Nat :=
  (addon_files.map (fun af => af.2.length)).sum

/-- Configuration for the fully-successful concrete run. -/
def c4Config : BackupConfig := { destination_path := ["d"], create_timestamp_folder := false }

/-- World for the fully-successful concrete run: one existing readable
source file, everything writable, ample free space. -/
def c4World : World :=
  mkWorld [(["s", "a.lua"], { content := [1, 2, 3] })] (fun _ => true) 1000

/-- Input map for the fully-successful concrete run. -/
def c4Map : List (String × List FsPath) := [("AddonX", [["s", "a.lua"]])]

/-- World for the two-addon ordering scenario: four distinct readable source
files, everything writable, no pre-existing destinations. -/
def c9World : World :=
  mkWorld
    [(["s", "A1.lua"], { content := [1] }),
     (["s", "A2.lua"], { content := [2] }),
     (["s", "B1.lua"], { content := [3] }),
     (["s", "B2.lua"], { content := [4] })]
    (fun _ => true) 1000

/-- Input map for the ordering scenario: addons [A, B], files [f1, f2]. -/
def c9Map : List (String × List FsPath) :=
  [("A", [["s", "A1.lua"], ["s", "A2.lua"]]),
   ("B", [["s", "B1.lua"], ["s", "B2.lua"]])]

end APM

namespace APM

/-- Appending one element never leaves a list empty. -/
theorem isEmpty_append_singleton {α : Type} (l : List α) (x : α) :
    (l ++ [x]).isEmpty = false := by
  cases l <;> rfl

/-- Every successful (non-raising) outcome of the phase pipeline carries a
result whose success flag equals the emptiness conjunction. -/
theorem phases_ok_success {config : BackupConfig} {conflicts : ConflictResolution}
    {now : String} {w : World} {profile : AddonProfile}
    {addon_files : List (String × List FsPath)} {r0 : BackupResult}
    {w' : World} {r' : BackupResult} {c : Bool}
    (h : create_backup_phases config conflicts now w profile addon_files r0 = .ok (w', r', c)) :
    r'.success = (r'.failed_files.isEmpty && r'.validation_errors.isEmpty) := by
  unfold create_backup_phases at h
  repeat' split at h
  any_goals cases h
  all_goals rfl

/-- C1: for every completed run of `create_backup`, the returned
`BackupResult` satisfies `success = (failed_files is empty AND
validation_errors is empty)`.  `success` is assigned once, after all phases:
in the embedding the only assignments are the single final one of
`create_backup_phases` (normal path) and the single `success := false` of
the exception handler, whose result always has a non-empty `failed_files`,
so the invariant holds on both exits. -/
theorem C1_success_invariant (config : BackupConfig) (conflicts : ConflictResolution)
    (now : String) (w : World) (profile : AddonProfile)
    (addon_files : List (String × List FsPath)) :
    ((create_backup config conflicts now w profile addon_files).2).success
      = (((create_backup config conflicts now w profile addon_files).2).failed_files.isEmpty
          && ((create_backup config conflicts now w profile addon_files).2).validation_errors.isEmpty) := by
  unfold create_backup
  rcases hp : create_backup_phases config conflicts now w profile addon_files
      { start_time := some now } with ⟨e, w', r'⟩ | ⟨w', r', c⟩
  · simp [hp, BackupResult.add_failed_file, isEmpty_append_singleton]
  · simp only [hp]
    simpa using phases_ok_success hp

/-- C2: the repository's own test (`test_create_backup_insufficient_space`)
and the spec expect `create_backup` to raise `InsufficientSpaceError` to the
caller, but the blanket `except Exception` at the top of `create_backup`
catches it and folds it into `failed_files` as the synthetic
`("backup_operation", message)` entry: on a world with 0 free bytes and a
3-byte source file the run returns normally with exactly that entry,
`success = false`, and nothing copied or skipped; no destination file is
created (the world is unchanged). -/
theorem C2_insufficient_space_folded :
    (create_backup c2Config {} "T" c2World { name := "p" } c2Map).2.failed_files
      = [(["backup_operation"],
          Exn.toMessage (.insufficientSpace 3 0 ["dest", "Backup"]))]
    ∧ (create_backup c2Config {} "T" c2World { name := "p" } c2Map).2.success = false
    ∧ (create_backup c2Config {} "T" c2World { name := "p" } c2Map).2.copied_files = []
    ∧ (create_backup c2Config {} "T" c2World { name := "p" } c2Map).2.skipped_files = []
    ∧ (create_backup c2Config {} "T" c2World { name := "p" } c2Map).1.lookup
        ["dest", "Backup", "p", "AddonX", "a.lua"] = none := by
  refine ⟨rfl, rfl, rfl, rfl, rfl⟩

/-- C3 counterexample: two `FileIntegrity` records computed for missing
files `matches`-compare as `true` (all fields are `None`, and `None == None`
holds for size and both digests), and such a record's digests are `None`,
not the empty string — the claim asserts empty-string digests and that a
failed record never matches another. -/
theorem C3_counterexample :
    (FileIntegrity.calculate c3World (FileIntegrity.init ["gone1.lua"])).matches
      (FileIntegrity.calculate c3World (FileIntegrity.init ["gone2.lua"])) = true
    ∧ (FileIntegrity.calculate c3World (FileIntegrity.init ["gone1.lua"])).md5_hash = none
    ∧ (FileIntegrity.calculate c3World (FileIntegrity.init ["gone1.lua"])).sha256_hash = none := by
  refine ⟨rfl, rfl, rfl⟩

/-- C3 (amended): `calculate` on a missing file leaves every field `None`
(the failed `stat` aborts before hashing); on a stat-able but unreadable
file it sets the stat size and mtime and empty-string digests; `matches`
compares only size and the two digests, so two records computed for missing
files match each other. -/
theorem C3_failed_record_fields (w : World) (p q u : FsPath) (fd : FileData)
    (hp : w.lookup p = none) (hq : w.lookup q = none)
    (hu : w.lookup u = some fd) (hur : fd.readable = false) :
    (FileIntegrity.calculate w (FileIntegrity.init p)).size = none
    ∧ (FileIntegrity.calculate w (FileIntegrity.init p)).md5_hash = none
    ∧ (FileIntegrity.calculate w (FileIntegrity.init p)).sha256_hash = none
    ∧ (FileIntegrity.calculate w (FileIntegrity.init p)).modified_time = none
    ∧ (FileIntegrity.calculate w (FileIntegrity.init u)).size = some fd.content.length
    ∧ (FileIntegrity.calculate w (FileIntegrity.init u)).md5_hash = some ""
    ∧ (FileIntegrity.calculate w (FileIntegrity.init u)).sha256_hash = some ""
    ∧ (FileIntegrity.calculate w (FileIntegrity.init p)).matches
        (FileIntegrity.calculate w (FileIntegrity.init q)) = true := by
  simp [FileIntegrity.calculate, FileIntegrity.init, FileIntegrity.calculate_hash,
    FileIntegrity.matches, hp, hq, hu, hur]

/-- Witness for the amended C3 at a concrete world: `gone1.lua` and
`gone2.lua` are missing, `u.lua` exists with 2 bytes but is unreadable. -/
theorem C3_failed_record_fields_witness :
    (FileIntegrity.calculate c3WitWorld (FileIntegrity.init ["gone1.lua"])).size = none
    ∧ (FileIntegrity.calculate c3WitWorld (FileIntegrity.init ["gone1.lua"])).md5_hash = none
    ∧ (FileIntegrity.calculate c3WitWorld (FileIntegrity.init ["gone1.lua"])).sha256_hash = none
    ∧ (FileIntegrity.calculate c3WitWorld (FileIntegrity.init ["gone1.lua"])).modified_time = none
    ∧ (FileIntegrity.calculate c3WitWorld (FileIntegrity.init ["u.lua"])).size = some 2
    ∧ (FileIntegrity.calculate c3WitWorld (FileIntegrity.init ["u.lua"])).md5_hash = some ""
    ∧ (FileIntegrity.calculate c3WitWorld (FileIntegrity.init ["u.lua"])).sha256_hash = some ""
    ∧ (FileIntegrity.calculate c3WitWorld (FileIntegrity.init ["gone1.lua"])).matches
        (FileIntegrity.calculate c3WitWorld (FileIntegrity.init ["gone2.lua"])) = true := by
  have h := C3_failed_record_fields c3WitWorld ["gone1.lua"] ["gone2.lua"] ["u.lua"]
    { content := [7, 8], readable := false } rfl rfl rfl rfl
  simpa using h

/-- The copy attempt never produces the `break` flag. -/
theorem copy_step_false (w : World) (r : BackupResult) (s d : FsPath) :
    (copy_step w r s d).2.2 = false := by
  unfold copy_step
  repeat' split
  all_goals rfl

/-- Inversion: the only branch of the per-file loop body that produces the
`break` flag is the `cancel` arm, which mutates nothing. -/
theorem process_file_true_inv
    (resolve : FsPath → FsPath → String) (conflicts : ConflictResolution)
    (apath : FsPath) (w : World) (r : BackupResult) (f : FsPath)
    (w1 : World) (r1 : BackupResult)
    (h : process_file resolve conflicts apath w r f = .ok (w1, r1, true)) :
    w1 = w ∧ r1 = r := by
  by_cases hs : w.fileExists f = true
  · by_cases hd : w.fileExists (apath ++ [FsPath.name f]) = true
    · by_cases h1 : (resolve f (apath ++ [FsPath.name f]) == "skip") = true
      · simp [process_file, hs, hd, h1] at h
      · by_cases h2 : (resolve f (apath ++ [FsPath.name f]) == "backup") = true
        · simp [process_file, hs, hd, h1, h2] at h
          rcases hcb : create_file_backup conflicts w (apath ++ [FsPath.name f]) with e | w2
          · rw [hcb] at h
            simp at h
          · rw [hcb] at h
            simp at h
            have hb := copy_step_false w2 r f (apath ++ [FsPath.name f])
            rw [h] at hb
            simp at hb
        · by_cases h3 : (resolve f (apath ++ [FsPath.name f]) == "cancel") = true
          · simp [process_file, hs, hd, h1, h2, h3] at h
            exact ⟨h.1.symm, h.2.symm⟩
          · simp [process_file, hs, hd, h1, h2, h3] at h
            have hb := copy_step_false w r f (apath ++ [FsPath.name f])
            rw [h] at hb
            simp at hb
    · simp [process_file, hs, hd] at h
      have hb := copy_step_false w r f (apath ++ [FsPath.name f])
      rw [h] at hb
      simp at hb
  · simp [process_file, hs] at h

/-- C7: when conflict resolution returns the `cancel` outcome for a file, the
iteration mutates nothing (`w1 = w`, `r1 = r`), the current addon's file loop
stops there — its remaining files never influence the outcome — and the
addon loop still processes every later addon from that state: `cancel` is
local to the current addon's file loop, not a global abort.  (The in-repo
`_resolve_conflict` never actually returns `"cancel"`; the dispatch is
exercised through the abstracted resolver argument.) -/
theorem C7_cancel_is_local (resolve : FsPath → FsPath → String)
    (conflicts : ConflictResolution) (backup_path : FsPath) (addon_name : String)
    (f : FsPath) (post : List FsPath) (rest : List (String × List FsPath))
    (w w1 : World) (r r1 : BackupResult)
    (hcancel : process_file resolve conflicts (backup_path ++ [addon_name]) w r f
      = .ok (w1, r1, true)) :
    w1 = w ∧ r1 = r
    ∧ copy_files_loop resolve conflicts (backup_path ++ [addon_name]) w r (f :: post)
        = .ok (w1, r1, true)
    ∧ copy_addon_files resolve conflicts backup_path w r ((addon_name, f :: post) :: rest)
        = (match copy_addon_files resolve conflicts backup_path w1 r1 rest with
           | .error st => .error st
           | .ok (w2, r2, c) => .ok (w2, r2, true || c)) := by
  obtain ⟨hw, hr⟩ := process_file_true_inv _ _ _ _ _ _ _ _ hcancel
  subst hw
  subst hr
  refine ⟨rfl, rfl, ?_, ?_⟩
  · simp only [copy_files_loop, hcancel]
  · simp only [copy_addon_files, copy_files_loop, hcancel]

/-- Witness for C7: a resolver that answers `cancel` on the conflicting
`s/f1.lua` leaves the state untouched, skips the sibling `s/f2.lua`, and the
later addon `B` is still processed (its file `t/g1.lua` is copied). -/
theorem C7_cancel_is_local_witness :
    copy_files_loop cancelResolve {} ["bk", "A"] c7World {}
        [["s", "f1.lua"], ["s", "f2.lua"]] = .ok (c7World, {}, true)
    ∧ copy_addon_files cancelResolve {} ["bk"] c7World {}
        [("A", [["s", "f1.lua"], ["s", "f2.lua"]]), ("B", [["t", "g1.lua"]])]
        = (match copy_addon_files cancelResolve {} ["bk"] c7World {} [("B", [["t", "g1.lua"]])] with
           | .error st => .error st
           | .ok (w2, r2, c) => .ok (w2, r2, true || c)) := by
  have h := C7_cancel_is_local cancelResolve {} ["bk"] "A" ["s", "f1.lua"]
    [["s", "f2.lua"]] [("B", [["t", "g1.lua"]])] c7World c7World {} {} rfl
  exact ⟨h.2.2.1, h.2.2.2⟩

/-- C8: under the `prompt` policy (no decision function exists in the code
at all), `_resolve_conflict` answers `skip` for every conflict, so a file
whose destination already exists is recorded in `skipped_files` and the
world — in particular the existing destination file — is unchanged. -/
theorem C8_prompt_defaults_to_skip (conflicts : ConflictResolution)
    (hps : conflicts.strategy = "prompt") (w : World) (r : BackupResult)
    (addon_backup_path : FsPath) (f : FsPath)
    (hsrc : w.fileExists f = true)
    (hdest : w.fileExists (addon_backup_path ++ [FsPath.name f]) = true) :
    (∀ source dest : FsPath, resolve_conflict conflicts source dest = "skip")
    ∧ process_file (resolve_conflict conflicts) conflicts addon_backup_path w r f
        = .ok (w, { r with skipped_files := r.skipped_files ++ [f] }, false) := by
  have hres : ∀ source dest : FsPath, resolve_conflict conflicts source dest = "skip" := by
    intro s d
    unfold resolve_conflict
    rw [hps]
    decide
  refine ⟨hres, ?_⟩
  simp [process_file, hsrc, hdest, hres]

/-- Witness for C8: the default configuration (strategy `prompt`) skips the
conflicting `s/a.lua`, leaving the world untouched. -/
theorem C8_prompt_defaults_to_skip_witness :
    resolve_conflict {} ["s", "a.lua"] ["bk", "A", "a.lua"] = "skip"
    ∧ process_file (resolve_conflict {}) {} ["bk", "A"] c8World {} ["s", "a.lua"]
        = .ok (c8World, { skipped_files := [["s", "a.lua"]] }, false) := by
  have h := C8_prompt_defaults_to_skip {} rfl c8World {} ["bk", "A"] ["s", "a.lua"]
    rfl rfl
  exact ⟨h.1 ["s", "a.lua"] ["bk", "A", "a.lua"], h.2⟩

/-- C10: `strategy` is an unconstrained string; under any strategy other
than the four recognized ones, `_resolve_conflict` falls through to the
final `else` and returns `skip` for every conflict, so a file whose
destination already exists is recorded as skipped and the existing
destination file is never overwritten (the world is unchanged). -/
theorem C10_unrecognized_strategy_skips (conflicts : ConflictResolution)
    (h1 : conflicts.strategy ≠ "overwrite") (h2 : conflicts.strategy ≠ "skip")
    (h3 : conflicts.strategy ≠ "backup") (h4 : conflicts.strategy ≠ "prompt")
    (w : World) (r : BackupResult) (addon_backup_path : FsPath) (f : FsPath)
    (hsrc : w.fileExists f = true)
    (hdest : w.fileExists (addon_backup_path ++ [FsPath.name f]) = true) :
    (∀ source dest : FsPath, resolve_conflict conflicts source dest = "skip")
    ∧ process_file (resolve_conflict conflicts) conflicts addon_backup_path w r f
        = .ok (w, { r with skipped_files := r.skipped_files ++ [f] }, false) := by
  have hres : ∀ source dest : FsPath, resolve_conflict conflicts source dest = "skip" := by
    intro s d
    simp [resolve_conflict, beq_iff_eq, h1, h2, h3, h4]
  refine ⟨hres, ?_⟩
  simp [process_file, hsrc, hdest, hres]

/-- The copy attempt records its file in exactly one bucket: `copied_files`
on success, `failed_files` (with the exception's message) on failure. -/
theorem copy_step_inv (w : World) (r : BackupResult) (s d : FsPath) :
    (∃ w' sz, copy_step w r s d = (w', r.add_copied_file s sz, false))
    ∨ ∃ w' msg, copy_step w r s d = (w', r.add_failed_file s msg, false) := by
  rcases hcp : copy_file_with_progress w s d with e | w'
  · right
    refine ⟨w, e.toMessage, ?_⟩
    unfold copy_step
    rw [hcp]
  · rcases hlk : w'.lookup s with _ | fd
    · right
      refine ⟨w', (Exn.fileNotFound s).toMessage, ?_⟩
      unfold copy_step
      rw [hcp]
      simp [hlk]
    · left
      refine ⟨w', fd.content.length, ?_⟩
      unfold copy_step
      rw [hcp]
      simp [hlk]

/-- C5: whenever the per-file loop body records a failure for a file — that
is, it returns normally with a changed `failed_files` — the failure is
recorded as exactly one `(file, human-readable message)` entry, it is never
the `break`/`cancel` outcome, the file loop goes on to process the remaining
files of the addon from the updated state, and (last conjunct) any addon
whose file loop returns normally lets the addon loop proceed to all later
addons: one file's failure aborts no sibling file and no later addon. -/
theorem C5_per_file_failure_isolated
    (resolve : FsPath → FsPath → String) (conflicts : ConflictResolution)
    (apath : FsPath) (w w1 : World) (r r1 : BackupResult) (f : FsPath)
    (rest : List FsPath) (c : Bool)
    (hstep : process_file resolve conflicts apath w r f = .ok (w1, r1, c))
    (hfail : r1.failed_files ≠ r.failed_files) :
    (∃ msg, r1.failed_files = r.failed_files ++ [(f, msg)]) ∧ c = false
    ∧ copy_files_loop resolve conflicts apath w r (f :: rest)
        = copy_files_loop resolve conflicts apath w1 r1 rest
    ∧ ∀ (addon_name : String) (more : List (String × List FsPath))
        (backup_path : FsPath) (files : List FsPath) (w2 : World)
        (r2 : BackupResult) (c2 : Bool),
        copy_files_loop resolve conflicts (backup_path ++ [addon_name]) w r files
          = .ok (w2, r2, c2) →
        copy_addon_files resolve conflicts backup_path w r ((addon_name, files) :: more)
          = (match copy_addon_files resolve conflicts backup_path w2 r2 more with
             | .error st => .error st
             | .ok (w3, r3, c3) => .ok (w3, r3, c2 || c3)) := by
  have hA : (∃ msg, r1.failed_files = r.failed_files ++ [(f, msg)]) ∧ c = false := by
    have h := hstep
    by_cases hs : w.fileExists f = true
    · by_cases hd : w.fileExists (apath ++ [FsPath.name f]) = true
      · by_cases h1 : (resolve f (apath ++ [FsPath.name f]) == "skip") = true
        · simp [process_file, hs, hd, h1] at h
          exact absurd (by rw [← h.2.1]; try rfl) hfail
        · by_cases h2 : (resolve f (apath ++ [FsPath.name f]) == "backup") = true
          · simp [process_file, hs, hd, h1, h2] at h
            rcases hcb : create_file_backup conflicts w (apath ++ [FsPath.name f]) with e | w2
            · rw [hcb] at h
              simp at h
            · rw [hcb] at h
              simp at h
              rcases copy_step_inv w2 r f (apath ++ [FsPath.name f]) with
                ⟨w', sz, hcs⟩ | ⟨w', msg, hcs⟩
              · rw [hcs] at h
                simp at h
                exact absurd (by rw [← h.2.1]; try rfl) hfail
              · rw [hcs] at h
                simp at h
                exact ⟨⟨msg, by rw [← h.2.1]; try rfl⟩, h.2.2⟩
          · by_cases h3 : (resolve f (apath ++ [FsPath.name f]) == "cancel") = true
            · simp [process_file, hs, hd, h1, h2, h3] at h
              exact absurd (by rw [← h.2.1]; try rfl) hfail
            · simp [process_file, hs, hd, h1, h2, h3] at h
              rcases copy_step_inv w r f (apath ++ [FsPath.name f]) with
                ⟨w', sz, hcs⟩ | ⟨w', msg, hcs⟩
              · rw [hcs] at h
                simp at h
                exact absurd (by rw [← h.2.1]; try rfl) hfail
              · rw [hcs] at h
                simp at h
                exact ⟨⟨msg, by rw [← h.2.1]; try rfl⟩, h.2.2⟩
      · simp [process_file, hs, hd] at h
        rcases copy_step_inv w r f (apath ++ [FsPath.name f]) with
          ⟨w', sz, hcs⟩ | ⟨w', msg, hcs⟩
        · rw [hcs] at h
          simp at h
          exact absurd (by rw [← h.2.1]; try rfl) hfail
        · rw [hcs] at h
          simp at h
          exact ⟨⟨msg, by rw [← h.2.1]; try rfl⟩, h.2.2⟩
    · simp [process_file, hs] at h
      exact ⟨⟨"Source file not found", by rw [← h.2.1]; try rfl⟩, h.2.2⟩
  obtain ⟨hmsg, hc⟩ := hA
  subst hc
  refine ⟨hmsg, rfl, ?_, ?_⟩
  · simp only [copy_files_loop, hstep]
  · intro addon_name more backup_path files w2 r2 c2 hl
    simp only [copy_addon_files, hl]

/-- Witness for C5: the missing source `s/x.lua` is recorded as failed with
"Source file not found" and the loop continues with the sibling `s/y.lua`. -/
theorem C5_per_file_failure_isolated_witness :
    (∃ msg, ({ failed_files := [(["s", "x.lua"], "Source file not found")] } : BackupResult).failed_files
        = ({} : BackupResult).failed_files ++ [(["s", "x.lua"], msg)])
    ∧ copy_files_loop (resolve_conflict {}) {} ["bk", "A"] c5World {}
        [["s", "x.lua"], ["s", "y.lua"]]
      = copy_files_loop (resolve_conflict {}) {} ["bk", "A"] c5World
          { failed_files := [(["s", "x.lua"], "Source file not found")] }
          [["s", "y.lua"]] := by
  have h := C5_per_file_failure_isolated (resolve_conflict {}) {} ["bk", "A"]
    c5World c5World {} { failed_files := [(["s", "x.lua"], "Source file not found")] }
    ["s", "x.lua"] [["s", "y.lua"]] false rfl (by simp)
  exact ⟨h.1, h.2.2.1⟩

/-- One validation pair appends exactly the spec-side verdict and touches no
other field of the result. -/
theorem validate_file_errors (w : World) (apath : FsPath) (r : BackupResult)
    (f : FsPath) :
    (validate_file w apath r f).validation_errors
      = r.validation_errors ++ (validation_error_at w apath f).toList
    ∧ (validate_file w apath r f).copied_files = r.copied_files
    ∧ (validate_file w apath r f).skipped_files = r.skipped_files
    ∧ (validate_file w apath r f).failed_files = r.failed_files := by
  by_cases hd : w.fileExists (apath ++ [FsPath.name f]) = true
  · by_cases hm : (FileIntegrity.calculate w (FileIntegrity.init f)).matches
        (FileIntegrity.calculate w (FileIntegrity.init (apath ++ [FsPath.name f]))) = true
    · simp [validate_file, validation_error_at, hd, hm, BackupResult.add_validation_error]
    · simp [validate_file, validation_error_at, hd, hm, BackupResult.add_validation_error]
  · simp [validate_file, validation_error_at, hd, BackupResult.add_validation_error]

/-- Folding the validator over one addon's file list appends exactly the
pairwise verdicts, in file order. -/
theorem validate_files_foldl (w : World) (apath : FsPath) (files : List FsPath)
    (r : BackupResult) :
    (files.foldl (validate_file w apath) r).validation_errors
      = r.validation_errors ++ files.filterMap (validation_error_at w apath) := by
  induction files generalizing r with
  | nil => simp
  | cons f fs ih =>
      rw [List.foldl_cons, ih, (validate_file_errors w apath r f).1]
      cases hv : validation_error_at w apath f <;> simp [hv]

/-- Folding the validator preserves the three outcome buckets. -/
theorem validate_files_foldl_buckets (w : World) (apath : FsPath)
    (files : List FsPath) (r : BackupResult) :
    (files.foldl (validate_file w apath) r).copied_files = r.copied_files
    ∧ (files.foldl (validate_file w apath) r).skipped_files = r.skipped_files
    ∧ (files.foldl (validate_file w apath) r).failed_files = r.failed_files := by
  induction files generalizing r with
  | nil => exact ⟨rfl, rfl, rfl⟩
  | cons f fs ih =>
      rw [List.foldl_cons]
      obtain ⟨h1, h2, h3⟩ := ih (validate_file w apath r f)
      obtain ⟨_, g1, g2, g3⟩ := validate_file_errors w apath r f
      exact ⟨h1.trans g1, h2.trans g2, h3.trans g3⟩

/-- C6: the integrity-validation phase visits every (addon, source file)
pair of the input map — it never stops early — and appends, in iteration
order, exactly one validation error per pair whose destination is missing
(reason "Destination file not found") or whose fingerprints do not match
(reason "Integrity check failed"), and none otherwise: its error list equals
the accumulated `filterMap` of the per-pair verdict over the whole map. -/
theorem C6_validation_exhaustive (w : World)
    (addon_files : List (String × List FsPath)) (backup_path : FsPath)
    (r : BackupResult) :
    (validate_backup_integrity w addon_files backup_path r).validation_errors
      = r.validation_errors
        ++ (addon_files.map (fun af =>
              af.2.filterMap (validation_error_at w (backup_path ++ [af.1])))).flatten := by
  induction addon_files generalizing r with
  | nil => simp [validate_backup_integrity]
  | cons af afs ih =>
      have hstep : validate_backup_integrity w (af :: afs) backup_path r
          = validate_backup_integrity w afs backup_path
              (af.2.foldl (validate_file w (backup_path ++ [af.1])) r) := rfl
      rw [hstep, ih, validate_files_foldl]
      simp

/-- Witness for C10: the strategy string `"merge"` is not recognized; the
conflicting `s/b.lua` is skipped and the world is untouched. -/
theorem C10_unrecognized_strategy_skips_witness :
    resolve_conflict { strategy := "merge" } ["s", "b.lua"] ["bk", "B", "b.lua"] = "skip"
    ∧ process_file (resolve_conflict { strategy := "merge" }) { strategy := "merge" }
        ["bk", "B"] c10World {} ["s", "b.lua"]
        = .ok (c10World, { skipped_files := [["s", "b.lua"]] }, false) := by
  have h := C10_unrecognized_strategy_skips { strategy := "merge" }
    (by decide) (by decide) (by decide) (by decide) c10World {} ["bk", "B"] ["s", "b.lua"]
    rfl rfl
  exact ⟨h.1 ["s", "b.lua"] ["bk", "B", "b.lua"], h.2⟩

/-- A per-file iteration that returns normally without `break` puts its file
in exactly one bucket. -/
theorem process_file_ok_bucket (resolve : FsPath → FsPath → String)
    (conflicts : ConflictResolution) (apath : FsPath) (w : World)
    (r : BackupResult) (f : FsPath) (w1 : World) (r1 : BackupResult)
    (h0 : process_file resolve conflicts apath w r f = .ok (w1, r1, false)) :
    r1.bucketCount = r.bucketCount + 1 := by
  have h := h0
  by_cases hs : w.fileExists f = true
  · by_cases hd : w.fileExists (apath ++ [FsPath.name f]) = true
    · by_cases h1 : (resolve f (apath ++ [FsPath.name f]) == "skip") = true
      · simp [process_file, hs, hd, h1] at h
        rw [← h.2]
        simp [BackupResult.bucketCount]
        omega
      · by_cases h2 : (resolve f (apath ++ [FsPath.name f]) == "backup") = true
        · simp [process_file, hs, hd, h1, h2] at h
          rcases hcb : create_file_backup conflicts w (apath ++ [FsPath.name f]) with e | w2
          · rw [hcb] at h
            simp at h
          · rw [hcb] at h
            simp at h
            rcases copy_step_inv w2 r f (apath ++ [FsPath.name f]) with
              ⟨w', sz, hcs⟩ | ⟨w', msg, hcs⟩
            · rw [hcs] at h
              simp at h
              rw [← h.2]
              simp [BackupResult.bucketCount, BackupResult.add_copied_file]
              omega
            · rw [hcs] at h
              simp at h
              rw [← h.2]
              simp [BackupResult.bucketCount, BackupResult.add_failed_file]
              omega
        · by_cases h3 : (resolve f (apath ++ [FsPath.name f]) == "cancel") = true
          · simp [process_file, hs, hd, h1, h2, h3] at h
          · simp [process_file, hs, hd, h1, h2, h3] at h
            rcases copy_step_inv w r f (apath ++ [FsPath.name f]) with
              ⟨w', sz, hcs⟩ | ⟨w', msg, hcs⟩
            · rw [hcs] at h
              simp at h
              rw [← h.2]
              simp [BackupResult.bucketCount, BackupResult.add_copied_file]
              omega
            · rw [hcs] at h
              simp at h
              rw [← h.2]
              simp [BackupResult.bucketCount, BackupResult.add_failed_file]
              omega
    · simp [process_file, hs, hd] at h
      rcases copy_step_inv w r f (apath ++ [FsPath.name f]) with
        ⟨w', sz, hcs⟩ | ⟨w', msg, hcs⟩
      · rw [hcs] at h
        simp at h
        rw [← h.2]
        simp [BackupResult.bucketCount, BackupResult.add_copied_file]
        omega
      · rw [hcs] at h
        simp at h
        rw [← h.2]
        simp [BackupResult.bucketCount, BackupResult.add_failed_file]
        omega
  · simp [process_file, hs] at h
    rw [← h.2]
    simp [BackupResult.bucketCount, BackupResult.add_failed_file]
    omega

/-- A cancel-free file loop puts each of its files in exactly one bucket. -/
theorem copy_files_loop_bucket (resolve : FsPath → FsPath → String)
    (conflicts : ConflictResolution) (apath : FsPath) (files : List FsPath)
    (w : World) (r : BackupResult) (w' : World) (r' : BackupResult)
    (h : copy_files_loop resolve conflicts apath w r files = .ok (w', r', false)) :
    r'.bucketCount = r.bucketCount + files.length := by
  induction files generalizing w r with
  | nil =>
      simp [copy_files_loop] at h
      rw [← h.2]
      simp
  | cons f fs ih =>
      rcases hpf : process_file resolve conflicts apath w r f with st | ⟨w1, r1, c⟩
      · simp only [copy_files_loop, hpf] at h
        cases h
      · simp only [copy_files_loop, hpf] at h
        cases c with
        | true => simp at h
        | false =>
            have hb := process_file_ok_bucket resolve conflicts apath w r f w1 r1 hpf
            have hr := ih w1 r1 h
            rw [hr, hb]
            simp [List.length_cons]
            omega

/-- A cancel-free copy phase puts every file of every addon in exactly one
bucket. -/
theorem copy_addon_files_bucket (resolve : FsPath → FsPath → String)
    (conflicts : ConflictResolution) (backup_path : FsPath)
    (addon_files : List (String × List FsPath)) (w : World) (r : BackupResult)
    (w' : World) (r' : BackupResult)
    (h : copy_addon_files resolve conflicts backup_path w r addon_files
      = .ok (w', r', false)) :
    r'.bucketCount = r.bucketCount + totalFiles addon_files := by
  induction addon_files generalizing w r with
  | nil =>
      simp [copy_addon_files] at h
      rw [← h.2]
      simp [totalFiles]
  | cons af afs ih =>
      obtain ⟨name, files⟩ := af
      rcases hfl : copy_files_loop resolve conflicts (backup_path ++ [name]) w r files
        with st | ⟨w1, r1, c1⟩
      · simp only [copy_addon_files, hfl] at h
        cases h
      · simp only [copy_addon_files, hfl] at h
        rcases hrest : copy_addon_files resolve conflicts backup_path w1 r1 afs
          with st | ⟨w2, r2, c2⟩
        · rw [hrest] at h
          simp at h
        · rw [hrest] at h
          simp at h
          obtain ⟨hw2, hr2, hc1, hc2⟩ := h
          subst hc1
          subst hc2
          subst hw2
          subst hr2
          have b1 := copy_files_loop_bucket resolve conflicts (backup_path ++ [name])
            files w r w1 r1 hfl
          have b2 := ih w1 r1 hrest
          rw [b2, b1]
          simp [totalFiles]
          omega

/-- The whole-map validator preserves the three outcome buckets. -/
theorem validate_backup_integrity_buckets (w : World)
    (addon_files : List (String × List FsPath)) (backup_path : FsPath)
    (r : BackupResult) :
    (validate_backup_integrity w addon_files backup_path r).copied_files = r.copied_files
    ∧ (validate_backup_integrity w addon_files backup_path r).skipped_files = r.skipped_files
    ∧ (validate_backup_integrity w addon_files backup_path r).failed_files = r.failed_files := by
  induction addon_files generalizing r with
  | nil => exact ⟨rfl, rfl, rfl⟩
  | cons af afs ih =>
      have hstep : validate_backup_integrity w (af :: afs) backup_path r
          = validate_backup_integrity w afs backup_path
              (af.2.foldl (validate_file w (backup_path ++ [af.1])) r) := rfl
      rw [hstep]
      obtain ⟨a1, a2, a3⟩ := ih (af.2.foldl (validate_file w (backup_path ++ [af.1])) r)
      obtain ⟨b1, b2, b3⟩ := validate_files_foldl_buckets w (backup_path ++ [af.1]) af.2 r
      exact ⟨a1.trans b1, a2.trans b2, a3.trans b3⟩

/-- C4: for every run of `create_backup` that completes without an escaping
exception (the phase pipeline returns normally) and without any
`cancel`/`break` outcome (the pipeline's flag is `false`), every one of the
N input file entries lands in exactly one of the three buckets:
`len(copied) + len(skipped) + len(failed) = N`. -/
theorem C4_conservation (config : BackupConfig) (conflicts : ConflictResolution)
    (now : String) (w : World) (profile : AddonProfile)
    (addon_files : List (String × List FsPath)) (w' : World) (r' : BackupResult)
    (hrun : create_backup_phases config conflicts now w profile addon_files
        { start_time := some now } = .ok (w', r', false)) :
    ((create_backup config conflicts now w profile addon_files).2).copied_files.length
      + ((create_backup config conflicts now w profile addon_files).2).skipped_files.length
      + ((create_backup config conflicts now w profile addon_files).2).failed_files.length
      = totalFiles addon_files := by
  have hres : (create_backup config conflicts now w profile addon_files).2
      = { r' with end_time := some now } := by
    simp only [create_backup, hrun]
  rw [hres]
  show r'.bucketCount = totalFiles addon_files
  rcases hreq : validate_backup_requirements config now w profile.name addon_files with _ | e
  · simp only [create_backup_phases, hreq] at hrun
    rcases hcp : copy_addon_files (resolve_conflict conflicts) conflicts
        (config.get_backup_path now profile.name) w { start_time := some now } addon_files
      with st | ⟨w1, r1, c1⟩
    · simp only [hcp] at hrun
      cases hrun
    · simp only [hcp] at hrun
      rcases hmd : metadata_phase config w1 (config.get_backup_path now profile.name)
        with e | w2
      · simp only [hmd] at hrun
        cases hrun
      · simp only [hmd] at hrun
        simp at hrun
        obtain ⟨hw2, hfin, hc1⟩ := hrun
        subst hc1
        have hb := copy_addon_files_bucket (resolve_conflict conflicts) conflicts
          (config.get_backup_path now profile.name) addon_files w
          { start_time := some now } w1 r1 hcp
        have hval := validate_backup_integrity_buckets w1 addon_files
          (config.get_backup_path now profile.name) r1
        have hphase : (integrity_phase config w1 addon_files
            (config.get_backup_path now profile.name) r1).bucketCount = r1.bucketCount := by
          by_cases hv : config.validate_integrity = true
          · simp only [integrity_phase, hv, if_true]
            simp [BackupResult.bucketCount, hval.1, hval.2.1, hval.2.2]
          · simp only [integrity_phase, hv, if_false]
            simp [hv]
        rw [← hfin]
        have hfs : (finish_success (integrity_phase config w1 addon_files
            (config.get_backup_path now profile.name) r1)).bucketCount
            = (integrity_phase config w1 addon_files
                (config.get_backup_path now profile.name) r1).bucketCount := rfl
        rw [hfs, hphase, hb]
        simp [BackupResult.bucketCount]
  · simp only [create_backup_phases, hreq] at hrun
    cases hrun

/-- All-success file loop: when every source of the addon exists and is
readable, every computed destination is fresh, writable and pairwise
distinct, and no destination coincides with a source, the loop copies every
file in list order and records nothing else; paths other than the
destinations are untouched. -/
theorem copy_files_loop_all_success (resolve : FsPath → FsPath → String)
    (conflicts : ConflictResolution) (apath : FsPath) (files : List FsPath)
    (w : World) (r : BackupResult)
    (hsrc : ∀ f ∈ files, ∃ fd, w.lookup f = some fd ∧ fd.readable = true)
    (hfresh : ∀ f ∈ files, w.lookup (apath ++ [FsPath.name f]) = none)
    (hwrt : ∀ f ∈ files, w.writable (apath ++ [FsPath.name f]) = true)
    (hnodup : (files.map (fun f => apath ++ [FsPath.name f])).Nodup)
    (hdisj : ∀ f ∈ files, ∀ g ∈ files, apath ++ [FsPath.name f] ≠ g) :
    ∃ w' r',
      copy_files_loop resolve conflicts apath w r files = .ok (w', r', false)
      ∧ r'.copied_files = r.copied_files ++ files
      ∧ r'.skipped_files = r.skipped_files
      ∧ r'.failed_files = r.failed_files
      ∧ (∀ p, (∀ f ∈ files, p ≠ apath ++ [FsPath.name f]) → w'.lookup p = w.lookup p)
      ∧ w'.writable = w.writable := by
  revert hsrc hfresh hwrt hnodup hdisj
  induction files generalizing w r with
  | nil =>
      intro _ _ _ _ _
      exact ⟨w, r, rfl, by simp, rfl, rfl, fun p _ => rfl, rfl⟩
  | cons f fs ih =>
      intro hsrc hfresh hwrt hnodup hdisj
      obtain ⟨fd, hlf, hrd⟩ := hsrc f (List.mem_cons_self f fs)
      rw [List.map_cons, List.nodup_cons] at hnodup
      obtain ⟨hhead, htail⟩ := hnodup
      have hex : w.fileExists f = true := by simp [World.fileExists, hlf]
      have hdne : w.fileExists (apath ++ [FsPath.name f]) = false := by
        simp [World.fileExists, hfresh f (List.mem_cons_self f fs)]
      have hcpy : copy_file_with_progress w f (apath ++ [FsPath.name f])
          = .ok (w.setFile (apath ++ [FsPath.name f])
              { content := fd.content, readable := true, mtime := 0 }) := by
        simp [copy_file_with_progress, hlf, hrd, hwrt f (List.mem_cons_self f fs)]
      have hne : apath ++ [FsPath.name f] ≠ f :=
        hdisj f (List.mem_cons_self f fs) f (List.mem_cons_self f fs)
      have hlf1 : (w.setFile (apath ++ [FsPath.name f])
          { content := fd.content, readable := true, mtime := 0 }).lookup f = some fd := by
        simp only [World.lookup, World.setFile]
        rw [if_neg (fun h => hne h.symm)]
        exact hlf
      have hstep : process_file resolve conflicts apath w r f
          = .ok (w.setFile (apath ++ [FsPath.name f])
                { content := fd.content, readable := true, mtime := 0 },
              r.add_copied_file f fd.content.length, false) := by
        simp [process_file, hex, hdne, copy_step, hcpy, hlf1]
      have hsrc2 : ∀ g ∈ fs, ∃ fd2,
          (w.setFile (apath ++ [FsPath.name f])
            { content := fd.content, readable := true, mtime := 0 }).lookup g = some fd2
          ∧ fd2.readable = true := by
        intro g hg
        obtain ⟨fd2, hfd2, hrd2⟩ := hsrc g (List.mem_cons_of_mem f hg)
        refine ⟨fd2, ?_, hrd2⟩
        simp only [World.lookup, World.setFile]
        rw [if_neg (fun h =>
          (hdisj f (List.mem_cons_self f fs) g (List.mem_cons_of_mem f hg)) h.symm)]
        exact hfd2
      have hfresh2 : ∀ g ∈ fs,
          (w.setFile (apath ++ [FsPath.name f])
            { content := fd.content, readable := true, mtime := 0 }).lookup
              (apath ++ [FsPath.name g]) = none := by
        intro g hg
        have hne2 : apath ++ [FsPath.name g] ≠ apath ++ [FsPath.name f] := by
          intro heq
          exact hhead (heq ▸ List.mem_map_of_mem _ hg)
        simp only [World.lookup, World.setFile]
        rw [if_neg hne2]
        exact hfresh g (List.mem_cons_of_mem f hg)
      have hwrt2 : ∀ g ∈ fs,
          (w.setFile (apath ++ [FsPath.name f])
            { content := fd.content, readable := true, mtime := 0 }).writable
              (apath ++ [FsPath.name g]) = true := by
        intro g hg
        exact hwrt g (List.mem_cons_of_mem f hg)
      have hdisj2 : ∀ a ∈ fs, ∀ b ∈ fs, apath ++ [FsPath.name a] ≠ b := by
        intro a ha b hb
        exact hdisj a (List.mem_cons_of_mem f ha) b (List.mem_cons_of_mem f hb)
      obtain ⟨w', r', hloop, hcop, hskp, hfl, hpres, hwr⟩ :=
        ih (w.setFile (apath ++ [FsPath.name f])
            { content := fd.content, readable := true, mtime := 0 })
          (r.add_copied_file f fd.content.length) hsrc2 hfresh2 hwrt2 htail hdisj2
      refine ⟨w', r', ?_, ?_, ?_, ?_, ?_, ?_⟩
      · simp only [copy_files_loop, hstep]
        exact hloop
      · rw [hcop]
        simp [BackupResult.add_copied_file]
      · exact hskp.trans rfl
      · exact hfl.trans rfl
      · intro p hp
        rw [hpres p (fun g hg => hp g (List.mem_cons_of_mem f hg))]
        simp only [World.lookup, World.setFile]
        rw [if_neg (hp f (List.mem_cons_self f fs))]
      · exact hwr.trans rfl

/-- C9: the copy phase walks the addons in input-map order and each addon's
files in list order; when every copy succeeds, `copied_files` is exactly the
input file lists flattened in that order, and nothing lands in
`skipped_files` or `failed_files`.  The witness instantiates addons [A, B]
with two files each and obtains copied order [A/f1, A/f2, B/f1, B/f2]. -/
theorem C9_sequential_determinism (resolve : FsPath → FsPath → String)
    (conflicts : ConflictResolution) (backup_path : FsPath)
    (addon_files : List (String × List FsPath)) (w : World) (r : BackupResult)
    (hsrc : ∀ af ∈ addon_files, ∀ f ∈ af.2, ∃ fd, w.lookup f = some fd ∧ fd.readable = true)
    (hfresh : ∀ af ∈ addon_files, ∀ f ∈ af.2,
      w.lookup (backup_path ++ [af.1] ++ [FsPath.name f]) = none)
    (hwrt : ∀ af ∈ addon_files, ∀ f ∈ af.2,
      w.writable (backup_path ++ [af.1] ++ [FsPath.name f]) = true)
    (hnodup : (addon_files.map (fun af =>
        af.2.map (fun f => backup_path ++ [af.1] ++ [FsPath.name f]))).flatten.Nodup)
    (hdisj : ∀ af ∈ addon_files, ∀ f ∈ af.2, ∀ bf ∈ addon_files, ∀ g ∈ bf.2,
      backup_path ++ [af.1] ++ [FsPath.name f] ≠ g) :
    ∃ w' r',
      copy_addon_files resolve conflicts backup_path w r addon_files = .ok (w', r', false)
      ∧ r'.copied_files = r.copied_files ++ (addon_files.map (fun af => af.2)).flatten
      ∧ r'.skipped_files = r.skipped_files
      ∧ r'.failed_files = r.failed_files
      ∧ (∀ p, (∀ af ∈ addon_files, ∀ f ∈ af.2,
            p ≠ backup_path ++ [af.1] ++ [FsPath.name f]) → w'.lookup p = w.lookup p)
      ∧ w'.writable = w.writable := by
  revert hsrc hfresh hwrt hnodup hdisj
  induction addon_files generalizing w r with
  | nil =>
      intro _ _ _ _ _
      exact ⟨w, r, rfl, by simp, rfl, rfl, fun p _ => rfl, rfl⟩
  | cons af afs ih =>
      intro hsrc hfresh hwrt hnodup hdisj
      obtain ⟨name, files⟩ := af
      rw [List.map_cons, List.flatten_cons] at hnodup
      have hnodupH := hnodup.of_append_left
      have hnodupT := hnodup.of_append_right
      have hdisjHT := List.disjoint_of_nodup_append hnodup
      obtain ⟨w1, r1, hloop, hcop1, hskp1, hfl1, hpres1, hwr1⟩ :=
        copy_files_loop_all_success resolve conflicts (backup_path ++ [name]) files w r
          (fun f hf => hsrc (name, files) (List.mem_cons_self _ _) f hf)
          (fun f hf => hfresh (name, files) (List.mem_cons_self _ _) f hf)
          (fun f hf => hwrt (name, files) (List.mem_cons_self _ _) f hf)
          hnodupH
          (fun f hf g hg => hdisj (name, files) (List.mem_cons_self _ _) f hf
            (name, files) (List.mem_cons_self _ _) g hg)
      have hsrcT : ∀ bf ∈ afs, ∀ f ∈ bf.2, ∃ fd, w1.lookup f = some fd ∧ fd.readable = true := by
        intro bf hbf f hf
        obtain ⟨fd, hfd, hrd⟩ := hsrc bf (List.mem_cons_of_mem _ hbf) f hf
        refine ⟨fd, ?_, hrd⟩
        rw [hpres1 f (fun g hg => (hdisj (name, files) (List.mem_cons_self _ _) g hg
          bf (List.mem_cons_of_mem _ hbf) f hf).symm)]
        exact hfd
      have hfreshT : ∀ bf ∈ afs, ∀ f ∈ bf.2,
          w1.lookup (backup_path ++ [bf.1] ++ [FsPath.name f]) = none := by
        intro bf hbf f hf
        have hcond : ∀ g ∈ files,
            backup_path ++ [bf.1] ++ [FsPath.name f] ≠ backup_path ++ [name] ++ [FsPath.name g] := by
          intro g hg heq
          have hmemT : backup_path ++ [bf.1] ++ [FsPath.name f]
              ∈ (afs.map (fun cf => cf.2.map
                  (fun f => backup_path ++ [cf.1] ++ [FsPath.name f]))).flatten := by
            rw [List.mem_flatten]
            exact ⟨_, List.mem_map_of_mem _ hbf, List.mem_map_of_mem _ hf⟩
          have hmemH : backup_path ++ [bf.1] ++ [FsPath.name f]
              ∈ files.map (fun f => backup_path ++ [name] ++ [FsPath.name f]) := by
            rw [heq]
            exact List.mem_map_of_mem _ hg
          exact hdisjHT hmemH hmemT
        rw [hpres1 _ hcond]
        exact hfresh bf (List.mem_cons_of_mem _ hbf) f hf
      have hwrtT : ∀ bf ∈ afs, ∀ f ∈ bf.2,
          w1.writable (backup_path ++ [bf.1] ++ [FsPath.name f]) = true := by
        intro bf hbf f hf
        rw [hwr1]
        exact hwrt bf (List.mem_cons_of_mem _ hbf) f hf
      have hdisjT : ∀ bf ∈ afs, ∀ f ∈ bf.2, ∀ cf ∈ afs, ∀ g ∈ cf.2,
          backup_path ++ [bf.1] ++ [FsPath.name f] ≠ g := by
        intro bf hbf f hf cf hcf g hg
        exact hdisj bf (List.mem_cons_of_mem _ hbf) f hf cf (List.mem_cons_of_mem _ hcf) g hg
      obtain ⟨w2, r2, hloop2, hcop2, hskp2, hfl2, hpres2, hwr2⟩ :=
        ih w1 r1 hsrcT hfreshT hwrtT hnodupT hdisjT
      refine ⟨w2, r2, ?_, ?_, ?_, ?_, ?_, ?_⟩
      · simp [copy_addon_files, hloop, hloop2]
      · rw [hcop2, hcop1]
        simp
      · exact hskp2.trans hskp1
      · exact hfl2.trans hfl1
      · intro p hp
        have e2 := hpres2 p (fun bf hbf f hf => hp bf (List.mem_cons_of_mem _ hbf) f hf)
        have e1 := hpres1 p (fun g hg => hp (name, files) (List.mem_cons_self _ _) g hg)
        exact e2.trans e1
      · exact hwr2.trans hwr1

/-- Witness for C9: addons [A, B] with files [f1, f2] each, all copies
succeeding, yield `copied_files = [A/f1, A/f2, B/f1, B/f2]` (the sources in
input order) with nothing skipped or failed. -/
theorem C9_sequential_determinism_witness :
    ∃ w' r',
      copy_addon_files (resolve_conflict {}) {} ["bk"] c9World {} c9Map
        = .ok (w', r', false)
      ∧ r'.copied_files
          = [["s", "A1.lua"], ["s", "A2.lua"], ["s", "B1.lua"], ["s", "B2.lua"]]
      ∧ r'.skipped_files = [] ∧ r'.failed_files = [] := by
  obtain ⟨w', r', h1, h2, h3, h4, -, -⟩ :=
    C9_sequential_determinism (resolve_conflict {}) {} ["bk"] c9Map c9World {}
      (by
        intro af haf f hf
        simp only [c9Map, List.mem_cons, List.not_mem_nil, or_false] at haf
        rcases haf with rfl | rfl <;>
          · simp only [List.mem_cons, List.not_mem_nil, or_false] at hf
            rcases hf with rfl | rfl <;> exact ⟨_, rfl, rfl⟩)
      (by
        intro af haf f hf
        simp only [c9Map, List.mem_cons, List.not_mem_nil, or_false] at haf
        rcases haf with rfl | rfl <;>
          · simp only [List.mem_cons, List.not_mem_nil, or_false] at hf
            rcases hf with rfl | rfl <;> rfl)
      (by
        intro af haf f hf
        simp only [c9Map, List.mem_cons, List.not_mem_nil, or_false] at haf
        rcases haf with rfl | rfl <;>
          · simp only [List.mem_cons, List.not_mem_nil, or_false] at hf
            rcases hf with rfl | rfl <;> rfl)
      (by
        simp only [c9Map]
        decide)
      (by
        intro af haf f hf bf hbf g hg
        simp only [c9Map, List.mem_cons, List.not_mem_nil, or_false] at haf hbf
        rcases haf with rfl | rfl <;> rcases hbf with rfl | rfl <;>
          · simp only [List.mem_cons, List.not_mem_nil, or_false] at hf hg
            rcases hf with rfl | rfl <;> rcases hg with rfl | rfl <;> decide)
  exact ⟨w', r', h1, h2.trans rfl, h3, h4⟩

/-- Witness for C4: the fully-successful single-file run copies `s/a.lua`
and the buckets add up to the one input file. -/
theorem C4_conservation_witness :
    (create_backup c4Config {} "T" c4World { name := "p" } c4Map).2.copied_files.length
      + (create_backup c4Config {} "T" c4World { name := "p" } c4Map).2.skipped_files.length
      + (create_backup c4Config {} "T" c4World { name := "p" } c4Map).2.failed_files.length
      = totalFiles c4Map :=
  C4_conservation c4Config {} "T" c4World { name := "p" } c4Map _ _ rfl

end APM
